import Mathlib

/-!
# Verification of `steps-pg` (src/index.js)

A shallow embedding of the step-run tracking core: the row resolver
(`getStepRow`, `getOrCreateStepRow`, `getRun`), the run handle's status
predicates and transition operations (`markRunning`, `markDone`,
`markFailed`), the `vars` accessor (`getVars`), and the active-run
registry with its shutdown hook (`finishActiveRuns`).

The PostgreSQL store is an external collaborator; it is modelled at its
interface boundary: a list of rows with a generated-id counter, a
uniqueness constraint on `(name, hash)`, and select/insert/update
queries.  JavaScript's cooperative concurrency is modelled by letting
the store state differ between the suspension points of a single
operation where a claim needs it (the select and the insert of the
resolver).  The platform builtin `JSON.parse` is passed as a parameter
to `getVars`; `JSON.stringify` is modelled by a concrete serializer.
-/

namespace StepsPg

/-- JSON values, as produced by `JSON.parse` and consumed by
`JSON.stringify`. -/
inductive Json where
  | null : Json
  | bool (b : Bool) : Json
  | num (n : Int) : Json
  | str (s : String) : Json
  | arr (xs : List Json) : Json
  | obj (kvs : List (String × Json)) : Json
  deriving Repr, Inhabited

/-- A JavaScript value slot that can also be `undefined` (a missing
property), as distinct from JSON `null`. -/
inductive JsAny where
  | undef : JsAny
  | jval (j : Json) : JsAny
  deriving Repr, Inhabited

/-- The `rootHash` argument of `getRun`: `undefined` (omitted), explicit
`null`, or a string. -/
inductive JsVal where
  | undef : JsVal
  | null : JsVal
  | str (s : String) : JsVal
  deriving Repr, DecidableEq, Inhabited

/-- JavaScript truthiness of a `rootHash` value, as tested by the
conditional expression `rootHash ? ... : ...` in `getRun`:
`undefined` and `null` are falsy, a string is truthy iff nonempty. -/
def jsTruthy : JsVal → Bool
  | JsVal.undef => false
  | JsVal.null => false
  | JsVal.str s => s ≠ ""

/-- JavaScript truthiness of a general value, as tested by
`row?.vars ? ... : ...` and `output ? ... : ...` in the transition
methods. -/
def jsAnyTruthy : JsAny → Bool
  | JsAny.undef => false
  | JsAny.jval Json.null => false
  | JsAny.jval (Json.bool b) => b
  | JsAny.jval (Json.num n) => n ≠ 0
  | JsAny.jval (Json.str s) => s ≠ ""
  | JsAny.jval (Json.arr _) => true
  | JsAny.jval (Json.obj _) => true

mutual
/-- Model of the platform builtin `JSON.stringify` on cycle-free JSON
values (string escaping elided: the claims never inspect the characters
of a serialized value, only whether a column is null). -/
def jsonStringify : Json → String
  | Json.null => "null"
  | Json.bool b => if b then "true" else "false"
  | Json.num n => toString n
  | Json.str s => "\x22" ++ s ++ "\x22"
  | Json.arr xs => "[" ++ jsonStringifyList xs ++ "]"
  | Json.obj kvs => "\x7b" ++ jsonStringifyKvs kvs ++ "\x7d"

/-- Comma-separated serialization of a JSON array's elements. -/
def jsonStringifyList : List Json → String
  | [] => ""
  | [x] => jsonStringify x
  | x :: y :: xs => jsonStringify x ++ "," ++ jsonStringifyList (y :: xs)

/-- Comma-separated serialization of a JSON object's key/value pairs. -/
def jsonStringifyKvs : List (String × Json) → String
  | [] => ""
  | [kv] => "\x22" ++ kv.1 ++ "\x22:" ++ jsonStringify kv.2
  | kv :: kv2 :: kvs =>
      "\x22" ++ kv.1 ++ "\x22:" ++ jsonStringify kv.2 ++ "," ++ jsonStringifyKvs (kv2 :: kvs)
end

/-- The JS expression `v ? JSON.stringify(v) : null` used for the `vars`
snapshot and the `output` payload in the transition methods. -/
def jsStringifyOrNull (v : JsAny) : Option String :=
  if jsAnyTruthy v then
    match v with
    | JsAny.jval j => some (jsonStringify j)
    | JsAny.undef => none
  else none

/-- Step status, stored as the single characters N/R/D/F
(`STATUS_NEW`, `STATUS_RUNNING`, `STATUS_DONE`, `STATUS_FAILED`). -/
inductive Status where
  | N : Status
  | R : Status
  | D : Status
  | F : Status
  deriving Repr, DecidableEq, Inhabited

/-- A JavaScript `Error` as serialized by `serializeError`: message,
stack, and any custom enumerable own properties. -/
structure JsError where
  message : String
  stack : String
  props : List (String × Json)
  deriving Repr, Inhabited

/-- `serializeError`: `JSON.stringify(error, Object.getOwnPropertyNames(error))`
— serializes the message, the stack trace, and the custom own
properties, not just the message string. -/
def serializeError (e : JsError) : String :=
  jsonStringify (Json.obj ([("message", Json.str e.message),
    ("stack", Json.str e.stack)] ++ e.props))

/-- A persisted step row, the logical columns of the `steps` table
(§6 of the interface contract): text columns are `Option String` with
`none` for SQL NULL. -/
structure StepRow where
  id : Nat
  name : String
  hash : String
  rootHash : Option String
  status : Status
  vars : Option String
  output : Option String
  error : Option String
  hostname : Option String
  started_at : Option String
  deriving Repr, DecidableEq, Inhabited

/-- The external store at its interface boundary: the table's rows plus
the generated-key counter (generated ids start at 1, so a stored id is
never the falsy 0). -/
structure Store where
  rows : List StepRow
  nextId : Nat
  deriving Repr, DecidableEq, Inhabited

/-- The empty table with ids starting at 1. -/
def emptyStore : Store := { rows := [], nextId := 1 }

/-- Store errors a query can reject with; the uniqueness-constraint
violation on `(name, hash)` is the distinguished case of §4.1. -/
inductive DbErr where
  | uniqueViolation : DbErr
  | queryError (msg : String) : DbErr
  deriving Repr, DecidableEq, Inhabited

/-- `getStepRow`: `SELECT * FROM table WHERE name = $1 AND hash = $2`,
taking `result.rows[0]` (the first matching row, or `undefined`). -/
def getStepRow (s : Store) (name hash : String) : Option StepRow :=
  (s.rows.filter (fun r => r.name = name ∧ r.hash = hash)).head?

/-- The store's INSERT with the uniqueness constraint on `(name, hash)`
(§6): rejects with `uniqueViolation` when a row with that pair already
exists, otherwise appends a fresh row and returns the generated id. -/
def insertRow (s : Store) (name hash : String) (rootHash : Option String)
    (status : Status) : Except DbErr (Store × Nat) :=
  if s.rows.any (fun r => r.name = name ∧ r.hash = hash) then
    Except.error DbErr.uniqueViolation
  else
    let id := s.nextId
    let r : StepRow :=
      { id := id, name := name, hash := hash, rootHash := rootHash,
        status := status, vars := none, output := none, error := none,
        hostname := none, started_at := none }
    Except.ok ({ rows := s.rows ++ [r], nextId := id + 1 }, id)

/-- `UPDATE table SET ... WHERE id = $1`: applies `f` to every row whose
id matches and returns the new store with `result.rowCount`. -/
def updateWhere (s : Store) (id : Nat) (f : StepRow → StepRow) : Store × Nat :=
  ({ s with rows := s.rows.map (fun r => if r.id = id then f r else r) },
   (s.rows.filter (fun r => r.id = id)).length)

/-- The in-memory row object a run handle is bound to.  `vars` is a
JavaScript slot: a string or SQL NULL when freshly selected, absent on
the freshly-inserted object literal, and a decoded JSON value after
`getVars` has run. -/
structure MemRow where
  id : Nat
  name : String
  hash : String
  rootHash : Option String
  status : Status
  vars : JsAny
  output : Option String
  error : Option String
  deriving Repr, Inhabited

/-- Conversion of a selected DB row to the in-memory object the handle
closes over (`pg` delivers SQL NULL as JS `null`). -/
def memOfDb (r : StepRow) : MemRow :=
  { id := r.id, name := r.name, hash := r.hash, rootHash := r.rootHash,
    status := r.status,
    vars := match r.vars with
      | some s => JsAny.jval (Json.str s)
      | none => JsAny.jval Json.null,
    output := r.output, error := r.error }

/-- `getOrCreateStepRow`: select by `(name, hash)`; if absent, build the
object literal `\x7b name, hash, rootHash, status: STATUS_NEW \x7d`,
insert it and attach the returned id.  There is no try/catch: any
rejection of the insert propagates.  To model concurrent interleaving,
`sSel` is the store when the SELECT executes and `sIns` the store when
the INSERT executes; a race-free sequential call passes the same store
twice. -/
def getOrCreateStepRow (sSel sIns : Store) (name hash : String)
    (rootHash : Option String) : Except DbErr (Store × MemRow) :=
  match getStepRow sSel name hash with
  | some r => Except.ok (sIns, memOfDb r)
  | none =>
      match insertRow sIns name hash rootHash Status.N with
      | Except.ok (s', id) =>
          Except.ok (s',
            { id := id, name := name, hash := hash, rootHash := rootHash,
              status := Status.N, vars := JsAny.undef,
              output := none, error := none })
      | Except.error e => Except.error e

/-- A run handle's captured state: the resolved row (or `undefined`),
the `hash` argument, and the `rootHash` argument, which the transition
guards test with `rootHash !== undefined`. -/
structure Handle where
  row : Option MemRow
  hash : String
  rootHash : JsVal
  deriving Repr, Inhabited

/-- `getRun`: resolves via `rootHash ? getOrCreateStepRow(...) :
getStepRow(...)` — the TRUTHINESS of `rootHash` selects the branch, so
both `undefined` and explicit `null` (and the empty string) take the
read-only `getStepRow` path.  Returns the resulting store and the
handle. -/
def getRun (s : Store) (name hash : String) (rootHash : JsVal) :
    Except DbErr (Store × Handle) :=
  if jsTruthy rootHash then
    match getOrCreateStepRow s s name hash
      (match rootHash with
       | JsVal.str v => some v
       | JsVal.null => none
       | JsVal.undef => none) with
    | Except.ok (s', row) =>
        Except.ok (s', { row := some row, hash := hash, rootHash := rootHash })
    | Except.error e => Except.error e
  else
    Except.ok (s,
      { row := (getStepRow s name hash).map memOfDb, hash := hash,
        rootHash := rootHash })

/-- A JavaScript `TypeError`, thrown when a property of `undefined` is
dereferenced. -/
inductive JsExn where
  | typeError (msg : String) : JsExn
  | syntaxError (msg : String) : JsExn
  deriving Repr, DecidableEq, Inhabited

/-- `isDone()`: `row.status === STATUS_DONE`.  When the resolution found
no row, `row` is `undefined` and reading `.status` throws a
`TypeError`. -/
def isDone (h : Handle) : Except JsExn Bool :=
  match h.row with
  | none => Except.error (JsExn.typeError "Cannot read properties of undefined")
  | some r => Except.ok (r.status = Status.D)

/-- `isRunning()`: `row.status === STATUS_RUNNING`, with the same
unguarded dereference. -/
def isRunning (h : Handle) : Except JsExn Bool :=
  match h.row with
  | none => Except.error (JsExn.typeError "Cannot read properties of undefined")
  | some r => Except.ok (r.status = Status.R)

/-- `isFailed()`: `row.status === STATUS_FAILED`, with the same
unguarded dereference. -/
def isFailed (h : Handle) : Except JsExn Bool :=
  match h.row with
  | none => Except.error (JsExn.typeError "Cannot read properties of undefined")
  | some r => Except.ok (r.status = Status.F)

/-- `getOutput()`: returns the cached `row.output` (throws the same
`TypeError` on an unbound handle). -/
def getOutput (h : Handle) : Except JsExn (Option String) :=
  match h.row with
  | none => Except.error (JsExn.typeError "Cannot read properties of undefined")
  | some r => Except.ok r.output

/-- `getVars()`: if `typeof row?.vars === 'string'` then
`row.vars = JSON.parse(row.vars)` — with no try/catch, so a parse
failure propagates — else `row.vars = \x7b\x7d`; returns `row.vars`.
`parse` is the platform builtin `JSON.parse`, passed as a parameter.
On an unbound handle the else-branch assignment `row.vars = ...`
dereferences `undefined` and throws.  Returns the updated handle and
the returned bag. -/
def getVars (parse : String → Except String Json) (h : Handle) :
    Except JsExn (Handle × Json) :=
  match h.row with
  | none => Except.error (JsExn.typeError "Cannot set properties of undefined")
  | some r =>
      match r.vars with
      | JsAny.jval (Json.str s) =>
          match parse s with
          | Except.ok j =>
              Except.ok ({ h with row := some { r with vars := JsAny.jval j } }, j)
          | Except.error msg => Except.error (JsExn.syntaxError msg)
      | _ =>
          Except.ok
            ({ h with row := some { r with vars := JsAny.jval (Json.obj []) } },
             Json.obj [])

/-- Process-wide state: the external store plus the Active Run Registry,
the module-level `Map` from hash to live run handle. -/
structure ProcState where
  store : Store
  activeRuns : List (String × Handle)
  deriving Repr, Inhabited

/-- `addActiveRun`: `activeRuns.set(hash, run)` — replaces the value of
an existing key in place, otherwise appends the new entry (JS `Map`
insertion-order semantics). -/
def addActiveRun (m : List (String × Handle)) (hash : String) (h : Handle) :
    List (String × Handle) :=
  if m.any (fun e => e.1 = hash) then
    m.map (fun e => if e.1 = hash then (hash, h) else e)
  else m ++ [(hash, h)]

/-- `removeActiveRun`: `activeRuns.delete(hash)`. -/
def removeActiveRun (m : List (String × Handle)) (hash : String) :
    List (String × Handle) :=
  m.filter (fun e => e.1 ≠ hash)

/-- The guard `row?.id && rootHash !== undefined` shared by the three
transition methods: the resolved row must exist with a truthy id and the
handle must not have been opened read-only. -/
def writableGuard (h : Handle) : Bool :=
  (match h.row with
   | some r => r.id != 0
   | none => false) && h.rootHash != JsVal.undef

/-- The id of the handle's row (only consulted under `writableGuard`). -/
def rowId (h : Handle) : Nat :=
  match h.row with
  | some r => r.id
  | none => 0

/-- The `vars` snapshot written by every transition:
`row?.vars ? JSON.stringify(row.vars) : null`. -/
def varsSnapshot (h : Handle) : Option String :=
  match h.row with
  | some r => jsStringifyOrNull r.vars
  | none => none

/-- Pool-connection accounting for one transition call: connections
acquired from the pool and connections released back to it. -/
structure Ledger where
  acquired : Nat
  released : Nat
  deriving Repr, DecidableEq, Inhabited

/-- A JavaScript return value of the transition methods:
`result.rowCount` (a number) on the write path, `false` otherwise. -/
inductive JsRet where
  | num (n : Nat) : JsRet
  | bool (b : Bool) : JsRet
  deriving Repr, DecidableEq, Inhabited

/-- Truthiness of a transition result: `0` and `false` are falsy. -/
def jsRetTruthy : JsRet → Bool
  | JsRet.num n => n ≠ 0
  | JsRet.bool b => b

/-- `markRunning()`: under `writableGuard`, registers the handle in the
Active Run Registry, acquires a pool client, and inside `try/finally`
issues `UPDATE ... SET status = R, vars, hostname, started_at WHERE id`,
releasing the client whether the query resolves (`fault = none`) or
rejects (`fault = some e`); returns `result.rowCount`.  Outside the
guard it returns `false` without touching the store or the pool. -/
def markRunning (h : Handle) (host : Option String) (time : String)
    (fault : Option DbErr) (ps : ProcState) :
    ProcState × Ledger × Except DbErr JsRet :=
  if writableGuard h then
    let ps1 := { ps with activeRuns := addActiveRun ps.activeRuns h.hash h }
    match fault with
    | some e => (ps1, { acquired := 1, released := 1 }, Except.error e)
    | none =>
        let u := updateWhere ps1.store (rowId h) (fun r =>
          { r with status := Status.R, vars := varsSnapshot h,
                   hostname := host, started_at := some time })
        ({ ps1 with store := u.1 }, { acquired := 1, released := 1 },
         Except.ok (JsRet.num u.2))
  else (ps, { acquired := 0, released := 0 }, Except.ok (JsRet.bool false))

/-- `markDone(output)`: under `writableGuard`, deregisters the handle,
acquires a pool client, and inside `try/finally` issues
`UPDATE ... SET status = D, output = $3, vars = $4, error = null
WHERE id` with `output ? JSON.stringify(output) : null`, releasing the
client on both outcomes; returns `result.rowCount`.  Outside the guard
it returns `false` without touching the store or the pool. -/
def markDone (h : Handle) (output : JsAny) (fault : Option DbErr)
    (ps : ProcState) : ProcState × Ledger × Except DbErr JsRet :=
  if writableGuard h then
    let ps1 := { ps with activeRuns := removeActiveRun ps.activeRuns h.hash }
    match fault with
    | some e => (ps1, { acquired := 1, released := 1 }, Except.error e)
    | none =>
        let u := updateWhere ps1.store (rowId h) (fun r =>
          { r with status := Status.D, output := jsStringifyOrNull output,
                   vars := varsSnapshot h, error := none })
        ({ ps1 with store := u.1 }, { acquired := 1, released := 1 },
         Except.ok (JsRet.num u.2))
  else (ps, { acquired := 0, released := 0 }, Except.ok (JsRet.bool false))

/-- `markFailed(error)`: under `writableGuard`, deregisters the handle,
acquires a pool client, and inside `try/finally` issues
`UPDATE ... SET status = F, error = $3, vars = $4, output = null
WHERE id` with `serializeError(error)`, releasing the client on both
outcomes; returns `result.rowCount`.  Outside the guard it returns
`false` without touching the store or the pool. -/
def markFailed (h : Handle) (err : JsError) (fault : Option DbErr)
    (ps : ProcState) : ProcState × Ledger × Except DbErr JsRet :=
  if writableGuard h then
    let ps1 := { ps with activeRuns := removeActiveRun ps.activeRuns h.hash }
    match fault with
    | some e => (ps1, { acquired := 1, released := 1 }, Except.error e)
    | none =>
        let u := updateWhere ps1.store (rowId h) (fun r =>
          { r with status := Status.F, error := some (serializeError err),
                   vars := varsSnapshot h, output := none })
        ({ ps1 with store := u.1 }, { acquired := 1, released := 1 },
         Except.ok (JsRet.num u.2))
  else (ps, { acquired := 0, released := 0 }, Except.ok (JsRet.bool false))

/-- The generic termination error synthesized by the shutdown hook:
`new Error('Exit')`. -/
def exitError : JsError := { message := "Exit", stack := "", props := [] }

/-- One pass of the `for..of` loop of `finishActiveRuns`: invokes
`run.markFailed(error)` on each entry of the registry snapshot in turn
(each call deletes only its own key, so iterating the entries present
when the loop starts is faithful to JS `Map` iteration), threading the
process state and collecting the settled results that `Promise.all`
awaits. -/
def finishLoop (entries : List (String × Handle)) (ps : ProcState) :
    ProcState × List (Except DbErr JsRet) :=
  match entries with
  | [] => (ps, [])
  | e :: rest =>
      let step := markFailed e.2 exitError none ps
      let tail := finishLoop rest step.1
      (tail.1, step.2.2 :: tail.2)

/-- `finishActiveRuns`: the `beforeExit` reconciliation hook — builds
`new Error('Exit')`, invokes `markFailed` on every still-registered
handle, and awaits all of them (`Promise.all`) before exit proceeds. -/
def finishActiveRuns (ps : ProcState) : ProcState × List (Except DbErr JsRet) :=
  finishLoop ps.activeRuns ps

/-- A concrete process state with two RUNNING rows whose handles are
registered under their hashes, used to instantiate the reconciliation
theorem on a closed input. -/
def reconcileDemo : ProcState :=
  { store := { rows := [
      { id := 1, name := "a", hash := "b", rootHash := some "r",
        status := Status.R, vars := none, output := none, error := none,
        hostname := none, started_at := some "t" },
      { id := 2, name := "c", hash := "d", rootHash := some "r",
        status := Status.R, vars := none, output := none, error := none,
        hostname := none, started_at := some "t" }], nextId := 3 },
    activeRuns := [
      ("b", { row := some { id := 1, name := "a", hash := "b",
                            rootHash := some "r", status := Status.N,
                            vars := JsAny.undef, output := none,
                            error := none },
              hash := "b", rootHash := JsVal.str "r" }),
      ("d", { row := some { id := 2, name := "c", hash := "d",
                            rootHash := some "r", status := Status.N,
                            vars := JsAny.undef, output := none,
                            error := none },
              hash := "d", rootHash := JsVal.str "r" })] }

/-! ## Helper lemmas -/

/-- Every row of an updated store is the image of a row of the original
store under the conditional update. -/
theorem mem_updateWhere {s : Store} {i : Nat} {f : StepRow → StepRow} {r : StepRow}
    (hr : r ∈ (updateWhere s i f).1.rows) :
    ∃ r0 ∈ s.rows, (if r0.id = i then f r0 else r0) = r := by
  simpa [updateWhere] using hr

/-! ## Claim theorems -/

/-- Claim C1.  The claim says `getRun(name, hash, null)` on a store with
no row for `(name, hash)` performs get-or-create, inserting a
`status = NEW` row.  Evaluating the code at the failing input
`getRun("fetch-page", "abc123", null)` on the empty store: the branch
`rootHash ? getOrCreateStepRow : getStepRow` tests TRUTHINESS, `null`
is falsy, so the read-only `getStepRow` path runs — the store comes
back unchanged (no row inserted) and the handle is bound to no row,
contradicting the claim and the code's own doc comment (which reserves
read-only mode for `undefined` and says a root step passes `null`). -/
theorem getRun_explicit_null_creates_no_row :
    getRun emptyStore "fetch-page" "abc123" JsVal.null =
      Except.ok (emptyStore,
        { row := none, hash := "abc123", rootHash := JsVal.null }) := by
  rfl

/-- Claim C2, counterexample.  With the select seeing no row (empty
store) and a concurrent creator having inserted `("a", "b")` by the
time the insert runs, `getOrCreateStepRow` propagates the store's
uniqueness violation instead of re-reading and returning the
now-existing row: the claim's recovery does not happen. -/
theorem getOrCreateStepRow_uniqueViolation_propagates_concrete :
    getOrCreateStepRow emptyStore
      { rows := [{ id := 1, name := "a", hash := "b", rootHash := some "r",
                   status := Status.N, vars := none, output := none,
                   error := none, hostname := none, started_at := none }],
        nextId := 2 }
      "a" "b" (some "r") = Except.error DbErr.uniqueViolation := by
  rfl

/-- Claim C2 as amended.  `getOrCreateStepRow` has no try/catch around
the insert: when the select finds no row and a row with the same
`(name, hash)` exists by the time the insert executes (a concurrent
creator won the race), the store's uniqueness violation propagates to
the caller like every other store error — there is no fallback
re-read. -/
theorem getOrCreateStepRow_insert_error_propagates (sSel sIns : Store)
    (name hash : String) (rootHash : Option String)
    (hsel : getStepRow sSel name hash = none)
    (hdup : ∃ r ∈ sIns.rows, r.name = name ∧ r.hash = hash) :
    getOrCreateStepRow sSel sIns name hash rootHash =
      Except.error DbErr.uniqueViolation := by
  simp only [getOrCreateStepRow, hsel, insertRow]
  rw [if_pos (by simpa using hdup)]

/-- Claim C2 witness: the amended theorem applied at the concrete race
of the counterexample scenario. -/
theorem getOrCreateStepRow_insert_error_propagates_witness :
    getOrCreateStepRow emptyStore
      { rows := [{ id := 7, name := "n", hash := "h", rootHash := none,
                   status := Status.N, vars := none, output := none,
                   error := none, hostname := none, started_at := none }],
        nextId := 8 }
      "n" "h" none = Except.error DbErr.uniqueViolation :=
  getOrCreateStepRow_insert_error_propagates emptyStore _ "n" "h" none rfl
    ⟨{ id := 7, name := "n", hash := "h", rootHash := none,
       status := Status.N, vars := none, output := none,
       error := none, hostname := none, started_at := none },
     by simp, rfl, rfl⟩

/-- Claim C3.  On a handle opened read-only (`rootHash` omitted, i.e.
`undefined`) or bound to no row, each of `markRunning`, `markDone` and
`markFailed` fails the guard `row?.id && rootHash !== undefined` and
returns the falsy `false`, leaving the store, the registry and the pool
untouched. -/
theorem mark_on_readonly_or_unresolved_is_noop (h : Handle)
    (host : Option String) (time : String) (output : JsAny) (err : JsError)
    (fault : Option DbErr) (ps : ProcState)
    (hro : h.rootHash = JsVal.undef ∨ h.row = none) :
    markRunning h host time fault ps =
      (ps, { acquired := 0, released := 0 }, Except.ok (JsRet.bool false)) ∧
    markDone h output fault ps =
      (ps, { acquired := 0, released := 0 }, Except.ok (JsRet.bool false)) ∧
    markFailed h err fault ps =
      (ps, { acquired := 0, released := 0 }, Except.ok (JsRet.bool false)) ∧
    jsRetTruthy (JsRet.bool false) = false := by
  have hg : writableGuard h = false := by
    rcases hro with h1 | h1 <;> simp [writableGuard, h1]
  simp [markRunning, markDone, markFailed, hg, jsRetTruthy]

/-- Claim C3 witness: the no-op theorem at a concrete read-only handle
over an unresolved row. -/
theorem mark_on_readonly_or_unresolved_is_noop_witness :
    markRunning { row := none, hash := "b", rootHash := JsVal.undef } none "t"
        none { store := emptyStore, activeRuns := [] } =
      ({ store := emptyStore, activeRuns := [] },
       { acquired := 0, released := 0 }, Except.ok (JsRet.bool false)) ∧
    markDone { row := none, hash := "b", rootHash := JsVal.undef }
        JsAny.undef none { store := emptyStore, activeRuns := [] } =
      ({ store := emptyStore, activeRuns := [] },
       { acquired := 0, released := 0 }, Except.ok (JsRet.bool false)) ∧
    markFailed { row := none, hash := "b", rootHash := JsVal.undef }
        exitError none { store := emptyStore, activeRuns := [] } =
      ({ store := emptyStore, activeRuns := [] },
       { acquired := 0, released := 0 }, Except.ok (JsRet.bool false)) ∧
    jsRetTruthy (JsRet.bool false) = false :=
  mark_on_readonly_or_unresolved_is_noop
    { row := none, hash := "b", rootHash := JsVal.undef } none "t" JsAny.undef
    exitError none { store := emptyStore, activeRuns := [] } (Or.inl rfl)

/-- Claim C6, counterexample.  A handle whose persisted `vars` is the
string `"\x7b"` — which `JSON.parse` rejects — makes `getVars()` throw
the parse error instead of returning an empty bag: `JSON.parse` is
called with no try/catch, so the failure surfaces to the caller. -/
theorem getVars_parse_failure_throws_concrete :
    getVars
      (fun s => if s = "\x7b\x7d" then Except.ok (Json.obj [])
                else Except.error "Unexpected end of JSON input")
      { row := some { id := 1, name := "a", hash := "b", rootHash := some "r",
                      status := Status.N, vars := JsAny.jval (Json.str "\x7b"),
                      output := none, error := none },
        hash := "b", rootHash := JsVal.str "r" } =
      Except.error (JsExn.syntaxError "Unexpected end of JSON input") := by
  rfl

/-- Claim C6 as amended.  `getVars()` substitutes an empty bag only when
the stored `vars` is not a string (missing, `null`, or an already
decoded value); when `vars` is a string that `JSON.parse` rejects, the
parse error propagates to the caller. -/
theorem getVars_missing_resets_but_parse_error_propagates
    (parse : String → Except String Json) (h : Handle) (r : MemRow)
    (hr : h.row = some r) :
    ((∀ s, r.vars ≠ JsAny.jval (Json.str s)) →
      getVars parse h =
        Except.ok
          ({ h with row := some { r with vars := JsAny.jval (Json.obj []) } },
           Json.obj [])) ∧
    (∀ s msg, r.vars = JsAny.jval (Json.str s) → parse s = Except.error msg →
      getVars parse h = Except.error (JsExn.syntaxError msg)) := by
  constructor
  · intro hns
    cases hv : r.vars with
    | undef => simp [getVars, hr, hv]
    | jval j =>
        cases j with
        | null => simp [getVars, hr, hv]
        | bool b => simp [getVars, hr, hv]
        | num n => simp [getVars, hr, hv]
        | str s => exact absurd hv (hns s)
        | arr xs => simp [getVars, hr, hv]
        | obj kvs => simp [getVars, hr, hv]
  · intro s msg hv hp
    simp [getVars, hr, hv, hp]

/-- Claim C6 witness: the amended theorem at a handle with missing
`vars`, yielding the empty bag. -/
theorem getVars_missing_resets_witness :
    getVars (fun _ => Except.error "unused")
      { row := some { id := 1, name := "a", hash := "b", rootHash := some "r",
                      status := Status.N, vars := JsAny.undef,
                      output := none, error := none },
        hash := "b", rootHash := JsVal.str "r" } =
      Except.ok
        ({ row := some { id := 1, name := "a", hash := "b",
                         rootHash := some "r", status := Status.N,
                         vars := JsAny.jval (Json.obj []),
                         output := none, error := none },
           hash := "b", rootHash := JsVal.str "r" },
         Json.obj []) :=
  (getVars_missing_resets_but_parse_error_propagates
    (fun _ => Except.error "unused") _ _ rfl).1 (fun s hs => by simp at hs)

/-- Claim C7.  The claim says resolving twice with any defined
`rootHash` yields the same row id both times.  At the defined value
`null` the code's truthiness test sends BOTH calls down the read-only
path: on an empty store, two sequential `getRun(name, hash, null)`
calls each bind no row at all (so there is no id either time), because
no row is ever created — the same truthiness slip as in the
`getRun` resolution branch, contradicting the code's own doc comment. -/
theorem getRun_explicit_null_twice_yields_no_ids :
    (do
      let r1 ← getRun emptyStore "a" "b" JsVal.null
      let r2 ← getRun r1.1 "a" "b" JsVal.null
      pure (r1.2.row, r2.2.row) : Except DbErr (Option MemRow × Option MemRow)) =
      Except.ok (none, none) := by
  rfl

/-- Claim C9.  Once a first `getVars()` call has decoded (or
initialized) the bag, `row.vars` holds a non-string value, so a second
call always takes the reset branch: whatever keys were set in place on
the bag in between, the second call returns a fresh empty object and
discards them. -/
theorem getVars_second_call_resets_bag (parse : String → Except String Json)
    (h : Handle) (r : MemRow) (kvs : List (String × Json))
    (hr : h.row = some r) (hv : r.vars = JsAny.jval (Json.obj kvs)) :
    getVars parse h =
      Except.ok
        ({ h with row := some { r with vars := JsAny.jval (Json.obj []) } },
         Json.obj []) := by
  simp [getVars, hr, hv]

/-- Claim C9 witness: a bag holding the key `k` set between the two
calls is replaced by the empty bag. -/
theorem getVars_second_call_resets_bag_witness :
    getVars (fun _ => Except.error "unused")
      { row := some { id := 1, name := "a", hash := "b", rootHash := some "r",
                      status := Status.R,
                      vars := JsAny.jval (Json.obj [("k", Json.num 1)]),
                      output := none, error := none },
        hash := "b", rootHash := JsVal.str "r" } =
      Except.ok
        ({ row := some { id := 1, name := "a", hash := "b",
                         rootHash := some "r", status := Status.R,
                         vars := JsAny.jval (Json.obj []),
                         output := none, error := none },
           hash := "b", rootHash := JsVal.str "r" },
         Json.obj []) :=
  getVars_second_call_resets_bag (fun _ => Except.error "unused") _ _
    [("k", Json.num 1)] rfl rfl

/-- Claim C10.  A read-only resolution that finds no row binds the
handle to `undefined`; `isDone`, `isRunning` and `isFailed` then
dereference `row.status` without a guard and throw a `TypeError`
instead of returning `false`. -/
theorem status_predicates_throw_on_unbound_handle (s : Store)
    (name hash : String) (hnone : getStepRow s name hash = none) :
    ∃ hd : Handle, getRun s name hash JsVal.undef = Except.ok (s, hd) ∧
      isDone hd =
        Except.error (JsExn.typeError "Cannot read properties of undefined") ∧
      isRunning hd =
        Except.error (JsExn.typeError "Cannot read properties of undefined") ∧
      isFailed hd =
        Except.error (JsExn.typeError "Cannot read properties of undefined") := by
  refine ⟨{ row := none, hash := hash, rootHash := JsVal.undef }, ?_, rfl, rfl, rfl⟩
  simp [getRun, jsTruthy, hnone]

/-- Claim C8.  Each transition method wraps its single UPDATE in
`try/finally`: when the guard passes it acquires exactly one pool
connection and releases it whether the query resolves (`fault = none`)
or rejects (`fault = some e`); when the guard fails it never touches
the pool. -/
theorem mark_transitions_release_connection (h : Handle)
    (host : Option String) (time : String) (output : JsAny) (err : JsError)
    (fault : Option DbErr) (ps : ProcState) :
    ((markRunning h host time fault ps).2.1 =
      if writableGuard h then { acquired := 1, released := 1 }
      else { acquired := 0, released := 0 }) ∧
    ((markDone h output fault ps).2.1 =
      if writableGuard h then { acquired := 1, released := 1 }
      else { acquired := 0, released := 0 }) ∧
    ((markFailed h err fault ps).2.1 =
      if writableGuard h then { acquired := 1, released := 1 }
      else { acquired := 0, released := 0 }) := by
  by_cases hg : writableGuard h <;> cases fault <;>
    simp [markRunning, markDone, markFailed, hg]

/-- Claim C5.  Transitions keep the persisted `output` and `error`
columns mutually exclusive: `markRunning` touches neither, the single
atomic UPDATE of `markDone` writes the encoded output and `error =
null` together, and the single atomic UPDATE of `markFailed` writes
the serialized error and `output = null` together — so a store in
which no row has both columns non-null stays that way, and the touched
row carries the claimed postcondition. -/
theorem output_error_mutually_exclusive (h : Handle) (host : Option String)
    (time : String) (output : JsAny) (err : JsError) (fault : Option DbErr)
    (ps : ProcState)
    (hx : ∀ r ∈ ps.store.rows, r.output = none ∨ r.error = none) :
    (∀ r ∈ (markRunning h host time fault ps).1.store.rows,
      r.output = none ∨ r.error = none) ∧
    (∀ r ∈ (markDone h output fault ps).1.store.rows,
      r.output = none ∨ r.error = none) ∧
    (∀ r ∈ (markFailed h err fault ps).1.store.rows,
      r.output = none ∨ r.error = none) ∧
    (writableGuard h = true →
      ∀ r ∈ (markDone h output none ps).1.store.rows, r.id = rowId h →
        r.status = Status.D ∧ r.output = jsStringifyOrNull output ∧
        r.error = none) ∧
    (writableGuard h = true →
      ∀ r ∈ (markFailed h err none ps).1.store.rows, r.id = rowId h →
        r.status = Status.F ∧ r.error = some (serializeError err) ∧
        r.output = none) := by
  refine ⟨?_, ?_, ?_, ?_, ?_⟩
  · intro r hr
    by_cases hg : writableGuard h
    · cases fault with
      | some e => exact hx r (by simpa [markRunning, hg] using hr)
      | none =>
          simp [markRunning, hg, updateWhere] at hr
          obtain ⟨r0, h0, heq⟩ := hr
          by_cases hid : r0.id = rowId h
          · rw [if_pos hid] at heq
            subst heq
            simpa using hx r0 h0
          · rw [if_neg hid] at heq
            subst heq
            exact hx r0 h0
    · exact hx r (by simpa [markRunning, hg] using hr)
  · intro r hr
    by_cases hg : writableGuard h
    · cases fault with
      | some e => exact hx r (by simpa [markDone, hg] using hr)
      | none =>
          simp [markDone, hg, updateWhere] at hr
          obtain ⟨r0, h0, heq⟩ := hr
          by_cases hid : r0.id = rowId h
          · rw [if_pos hid] at heq
            subst heq
            exact Or.inr rfl
          · rw [if_neg hid] at heq
            subst heq
            exact hx r0 h0
    · exact hx r (by simpa [markDone, hg] using hr)
  · intro r hr
    by_cases hg : writableGuard h
    · cases fault with
      | some e => exact hx r (by simpa [markFailed, hg] using hr)
      | none =>
          simp [markFailed, hg, updateWhere] at hr
          obtain ⟨r0, h0, heq⟩ := hr
          by_cases hid : r0.id = rowId h
          · rw [if_pos hid] at heq
            subst heq
            exact Or.inl rfl
          · rw [if_neg hid] at heq
            subst heq
            exact hx r0 h0
    · exact hx r (by simpa [markFailed, hg] using hr)
  · intro hg r hr hid
    simp [markDone, hg, updateWhere] at hr
    obtain ⟨r0, h0, heq⟩ := hr
    by_cases hid0 : r0.id = rowId h
    · rw [if_pos hid0] at heq
      subst heq
      exact ⟨rfl, rfl, rfl⟩
    · rw [if_neg hid0] at heq
      subst heq
      exact absurd hid hid0
  · intro hg r hr hid
    simp [markFailed, hg, updateWhere] at hr
    obtain ⟨r0, h0, heq⟩ := hr
    by_cases hid0 : r0.id = rowId h
    · rw [if_pos hid0] at heq
      subst heq
      exact ⟨rfl, rfl, rfl⟩
    · rw [if_neg hid0] at heq
      subst heq
      exact absurd hid hid0

/-- Claim C5 witness: the exclusivity theorem applied over a store
holding one freshly created row (both columns null), at a writable
handle bound to it. -/
theorem output_error_mutually_exclusive_witness :
    (∀ r ∈ (markRunning
        { row := some { id := 1, name := "a", hash := "b",
                        rootHash := some "r", status := Status.N,
                        vars := JsAny.undef, output := none, error := none },
          hash := "b", rootHash := JsVal.str "r" } none "t" none
        { store := { rows := [{ id := 1, name := "a", hash := "b",
                                rootHash := some "r", status := Status.N,
                                vars := none, output := none, error := none,
                                hostname := none, started_at := none }],
                     nextId := 2 },
          activeRuns := [] }).1.store.rows,
      r.output = none ∨ r.error = none) ∧
    (∀ r ∈ (markDone
        { row := some { id := 1, name := "a", hash := "b",
                        rootHash := some "r", status := Status.N,
                        vars := JsAny.undef, output := none, error := none },
          hash := "b", rootHash := JsVal.str "r" }
        (JsAny.jval (Json.obj [("pages", Json.num 3)])) none
        { store := { rows := [{ id := 1, name := "a", hash := "b",
                                rootHash := some "r", status := Status.N,
                                vars := none, output := none, error := none,
                                hostname := none, started_at := none }],
                     nextId := 2 },
          activeRuns := [] }).1.store.rows,
      r.output = none ∨ r.error = none) ∧
    (∀ r ∈ (markFailed
        { row := some { id := 1, name := "a", hash := "b",
                        rootHash := some "r", status := Status.N,
                        vars := JsAny.undef, output := none, error := none },
          hash := "b", rootHash := JsVal.str "r" } exitError none
        { store := { rows := [{ id := 1, name := "a", hash := "b",
                                rootHash := some "r", status := Status.N,
                                vars := none, output := none, error := none,
                                hostname := none, started_at := none }],
                     nextId := 2 },
          activeRuns := [] }).1.store.rows,
      r.output = none ∨ r.error = none) ∧
    (writableGuard
        { row := some { id := 1, name := "a", hash := "b",
                        rootHash := some "r", status := Status.N,
                        vars := JsAny.undef, output := none, error := none },
          hash := "b", rootHash := JsVal.str "r" } = true →
      ∀ r ∈ (markDone
          { row := some { id := 1, name := "a", hash := "b",
                          rootHash := some "r", status := Status.N,
                          vars := JsAny.undef, output := none, error := none },
            hash := "b", rootHash := JsVal.str "r" }
          (JsAny.jval (Json.obj [("pages", Json.num 3)])) none
          { store := { rows := [{ id := 1, name := "a", hash := "b",
                                  rootHash := some "r", status := Status.N,
                                  vars := none, output := none, error := none,
                                  hostname := none, started_at := none }],
                       nextId := 2 },
            activeRuns := [] }).1.store.rows,
        r.id = rowId
          { row := some { id := 1, name := "a", hash := "b",
                          rootHash := some "r", status := Status.N,
                          vars := JsAny.undef, output := none, error := none },
            hash := "b", rootHash := JsVal.str "r" } →
        r.status = Status.D ∧
        r.output =
          jsStringifyOrNull (JsAny.jval (Json.obj [("pages", Json.num 3)])) ∧
        r.error = none) ∧
    (writableGuard
        { row := some { id := 1, name := "a", hash := "b",
                        rootHash := some "r", status := Status.N,
                        vars := JsAny.undef, output := none, error := none },
          hash := "b", rootHash := JsVal.str "r" } = true →
      ∀ r ∈ (markFailed
          { row := some { id := 1, name := "a", hash := "b",
                          rootHash := some "r", status := Status.N,
                          vars := JsAny.undef, output := none, error := none },
            hash := "b", rootHash := JsVal.str "r" } exitError none
          { store := { rows := [{ id := 1, name := "a", hash := "b",
                                  rootHash := some "r", status := Status.N,
                                  vars := none, output := none, error := none,
                                  hostname := none, started_at := none }],
                       nextId := 2 },
            activeRuns := [] }).1.store.rows,
        r.id = rowId
          { row := some { id := 1, name := "a", hash := "b",
                          rootHash := some "r", status := Status.N,
                          vars := JsAny.undef, output := none, error := none },
            hash := "b", rootHash := JsVal.str "r" } →
        r.status = Status.F ∧ r.error = some (serializeError exitError) ∧
        r.output = none) :=
  output_error_mutually_exclusive
    { row := some { id := 1, name := "a", hash := "b", rootHash := some "r",
                    status := Status.N, vars := JsAny.undef, output := none,
                    error := none },
      hash := "b", rootHash := JsVal.str "r" } none "t"
    (JsAny.jval (Json.obj [("pages", Json.num 3)])) exitError none
    { store := { rows := [{ id := 1, name := "a", hash := "b",
                            rootHash := some "r", status := Status.N,
                            vars := none, output := none, error := none,
                            hostname := none, started_at := none }],
                 nextId := 2 },
      activeRuns := [] }
    (by intro r hr; rw [List.mem_singleton] at hr; subst hr; exact Or.inl rfl)

/-- A row-level invariant `status = FAILED with the serialized exit
error` is preserved by any further `markFailed` with the exit error:
every touched row is rewritten to exactly that shape and untouched rows
keep it. -/
theorem markFailed_exit_preserves (h : Handle) (ps : ProcState) (i : Nat)
    (hp : ∀ r ∈ ps.store.rows, r.id = i →
      r.status = Status.F ∧ r.error = some (serializeError exitError)) :
    ∀ r ∈ (markFailed h exitError none ps).1.store.rows, r.id = i →
      r.status = Status.F ∧ r.error = some (serializeError exitError) := by
  intro r hr hid
  by_cases hg : writableGuard h
  · simp [markFailed, hg, updateWhere] at hr
    obtain ⟨r0, h0, heq⟩ := hr
    by_cases hid0 : r0.id = rowId h
    · rw [if_pos hid0] at heq
      subst heq
      exact ⟨rfl, rfl⟩
    · rw [if_neg hid0] at heq
      subst heq
      exact hp r0 h0 hid
  · exact hp r (by simpa [markFailed, hg] using hr) hid

/-- A writable `markFailed` with the exit error establishes that
invariant at the handle's row id. -/
theorem markFailed_exit_establishes (h : Handle) (ps : ProcState)
    (hg : writableGuard h = true) :
    ∀ r ∈ (markFailed h exitError none ps).1.store.rows, r.id = rowId h →
      r.status = Status.F ∧ r.error = some (serializeError exitError) := by
  intro r hr hid
  simp [markFailed, hg, updateWhere] at hr
  obtain ⟨r0, h0, heq⟩ := hr
  by_cases hid0 : r0.id = rowId h
  · rw [if_pos hid0] at heq
    subst heq
    exact ⟨rfl, rfl⟩
  · rw [if_neg hid0] at heq
    subst heq
    exact absurd hid hid0

/-- The reconciliation loop preserves the FAILED-with-exit-error
invariant at any row id. -/
theorem finishLoop_preserves_failed (entries : List (String × Handle)) :
    ∀ ps : ProcState, ∀ i : Nat,
    (∀ r ∈ ps.store.rows, r.id = i →
      r.status = Status.F ∧ r.error = some (serializeError exitError)) →
    ∀ r ∈ (finishLoop entries ps).1.store.rows, r.id = i →
      r.status = Status.F ∧ r.error = some (serializeError exitError) := by
  induction entries with
  | nil =>
      intro ps i hp
      simpa [finishLoop] using hp
  | cons e rest ih =>
      intro ps i hp
      simp only [finishLoop]
      exact ih (markFailed e.2 exitError none ps).1 i
        (markFailed_exit_preserves e.2 ps i hp)

/-- After the reconciliation loop, every row bound to one of the
processed entries' handles is FAILED and carries the serialized exit
error, provided each entry's handle passes the writable guard. -/
theorem finishLoop_fails_entries (entries : List (String × Handle)) :
    ∀ ps : ProcState,
    (∀ e ∈ entries, writableGuard e.2 = true) →
    ∀ e ∈ entries, ∀ r ∈ (finishLoop entries ps).1.store.rows,
      r.id = rowId e.2 →
      r.status = Status.F ∧ r.error = some (serializeError exitError) := by
  induction entries with
  | nil =>
      intro ps _ e he
      exact absurd he (List.not_mem_nil e)
  | cons e0 rest ih =>
      intro ps hG e he r hr hid
      simp only [finishLoop] at hr
      rcases List.mem_cons.mp he with he0 | herest
      · subst he0
        exact finishLoop_preserves_failed rest (markFailed e.2 exitError none ps).1
          (rowId e.2)
          (markFailed_exit_establishes e.2 ps (hG e (List.mem_cons_self e rest)))
          r hr hid
      · exact ih (markFailed e0.2 exitError none ps).1
          (fun e' he' => hG e' (List.mem_cons_of_mem e0 he')) e herest r hr hid

/-- The reconciliation loop drains the registry: if every key still in
the registry belongs to some entry yet to be processed, and every
entry's key is its handle's hash with the handle writable, then the
registry ends empty. -/
theorem finishLoop_empties_registry (entries : List (String × Handle)) :
    ∀ ps : ProcState,
    (∀ e ∈ entries, writableGuard e.2 = true) →
    (∀ e ∈ entries, e.1 = e.2.hash) →
    (∀ e ∈ ps.activeRuns, e.1 ∈ entries.map Prod.fst) →
    (finishLoop entries ps).1.activeRuns = [] := by
  induction entries with
  | nil =>
      intro ps _ _ hreg
      simp only [finishLoop]
      exact List.eq_nil_iff_forall_not_mem.mpr
        (fun e he => by simpa using hreg e he)
  | cons e0 rest ih =>
      intro ps hG hK hreg
      simp only [finishLoop]
      have hg0 : writableGuard e0.2 = true := hG e0 (List.mem_cons_self e0 rest)
      refine ih (markFailed e0.2 exitError none ps).1
        (fun e he => hG e (List.mem_cons_of_mem e0 he))
        (fun e he => hK e (List.mem_cons_of_mem e0 he)) ?_
      intro e he
      have hreg0 : (markFailed e0.2 exitError none ps).1.activeRuns =
          removeActiveRun ps.activeRuns e0.2.hash := by
        simp [markFailed, hg0]
      rw [hreg0] at he
      simp only [removeActiveRun, List.mem_filter] at he
      obtain ⟨he1, he2⟩ := he
      have := hreg e he1
      simp only [List.map_cons, List.mem_cons] at this
      rcases this with h1 | h1
  -- the processed key was just removed from the registry
      · exfalso
        rw [hK e0 (List.mem_cons_self e0 rest)] at h1
        simp [h1] at he2
      · simpa using h1

/-- The loop settles exactly one `markFailed` result per entry. -/
theorem finishLoop_length (entries : List (String × Handle)) :
    ∀ ps : ProcState, (finishLoop entries ps).2.length = entries.length := by
  induction entries with
  | nil => intro ps; simp [finishLoop]
  | cons e rest ih => intro ps; simp [finishLoop, ih]

/-- Claim C4.  If every handle registered in the Active Run Registry is
writable (as `markRunning`, the only registering call, guarantees) and
is stored under its own hash (again as `markRunning` registers it),
then the shutdown hook settles one `markFailed` with the synthesized
`Error('Exit')` per registered handle, waits for all of them, leaves
every row bound to a registered handle in status FAILED with the
serialized exit error, and ends with the registry empty — no such run
stays RUNNING after the hook completes. -/
theorem finishActiveRuns_fails_all_registered (ps : ProcState)
    (hG : ∀ e ∈ ps.activeRuns, writableGuard e.2 = true)
    (hK : ∀ e ∈ ps.activeRuns, e.1 = e.2.hash) :
    (finishActiveRuns ps).1.activeRuns = [] ∧
    (finishActiveRuns ps).2.length = ps.activeRuns.length ∧
    ∀ e ∈ ps.activeRuns, ∀ r ∈ (finishActiveRuns ps).1.store.rows,
      r.id = rowId e.2 →
      r.status = Status.F ∧ r.error = some (serializeError exitError) :=
  ⟨finishLoop_empties_registry ps.activeRuns ps hG hK (fun e he => by
      simpa using List.mem_map_of_mem Prod.fst he),
   finishLoop_length ps.activeRuns ps,
   finishLoop_fails_entries ps.activeRuns ps hG⟩

/-- Claim C4 witness: two handles in RUNNING state registered under
their hashes over a store holding their rows; the hook fails both and
empties the registry. -/
theorem finishActiveRuns_fails_all_registered_witness :
    (finishActiveRuns reconcileDemo).1.activeRuns = [] ∧
    (finishActiveRuns reconcileDemo).2.length =
      reconcileDemo.activeRuns.length ∧
    ∀ e ∈ reconcileDemo.activeRuns,
      ∀ r ∈ (finishActiveRuns reconcileDemo).1.store.rows,
      r.id = rowId e.2 →
      r.status = Status.F ∧ r.error = some (serializeError exitError) :=
  finishActiveRuns_fails_all_registered reconcileDemo
    (by
      intro e he
      simp only [reconcileDemo, List.mem_cons, List.not_mem_nil, or_false] at he
      rcases he with he | he <;> subst he <;> rfl)
    (by
      intro e he
      simp only [reconcileDemo, List.mem_cons, List.not_mem_nil, or_false] at he
      rcases he with he | he <;> subst he <;> rfl)

/-- Claim C10 witness: the predicates throw on the handle produced by a
read-only `getRun` on the empty store. -/
theorem status_predicates_throw_on_unbound_handle_witness :
    ∃ hd : Handle, getRun emptyStore "a" "b" JsVal.undef =
        Except.ok (emptyStore, hd) ∧
      isDone hd =
        Except.error (JsExn.typeError "Cannot read properties of undefined") ∧
      isRunning hd =
        Except.error (JsExn.typeError "Cannot read properties of undefined") ∧
      isFailed hd =
        Except.error (JsExn.typeError "Cannot read properties of undefined") :=
  status_predicates_throw_on_unbound_handle emptyStore "a" "b" rfl

end StepsPg
